import Mathlib

/-!
# Verification of the nodeplayer queue orchestration core and local backend

This file shallowly embeds the JavaScript source of the repository:
the queue orchestration state machine (`_callHooks`, `_onQueueModify`,
`_searchQueue`, `_removeFromQueue`, `_initializeSong`, `_addToQueue`) and the
local backend (`Local.prototype.prepare`, `Local.prototype.search`,
`guessMetadataFromPath`, `insertSong`).  JavaScript strings are Lean `String`s,
numbers are `Nat`/`ℚ`, objects are structures, and asynchronous callbacks are
modelled by explicit continuations / outcome oracles.
-/

namespace NodePlayer

/-! ## JavaScript values and truthiness

Hook implementations may return any JavaScript value; the orchestrator only
inspects truthiness.  `JSVal.vmodule n` stands for a reference to the extension
module object registered under name `n` (module objects are always truthy). -/

inductive JSVal where
  | undef : JSVal
  | vstr : String → JSVal
  | vbool : Bool → JSVal
  | vnum : Int → JSVal
  | vmodule : String → JSVal
  deriving Repr, DecidableEq

/-- JavaScript truthiness of a `JSVal`. -/
def truthy : JSVal → Bool
  | JSVal.undef => false
  | JSVal.vstr s => s ≠ ""
  | JSVal.vbool b => b
  | JSVal.vnum n => n ≠ 0
  | JSVal.vmodule _ => true

/-- Truthiness of an optional string (e.g. `req.body.userID`):
`undefined` and the empty string are falsy. -/
def truthyStrOpt : Option String → Bool
  | none => false
  | some s => s ≠ ""

/-! ## Extension modules and hook dispatch (`_callHooks`)

A module is a named object that implements some set of hooks; the value a hook
implementation returns when invoked is recorded in an association list (the
dispatcher only looks at hook return values). -/

structure Module where
  name : String
  hooks : List (String × JSVal)
  deriving Repr, DecidableEq

/-- Embedding of `_callHooks(hook, argv)`:
`_.find(_playerState.modules, function(module) { if(module[hook]) return module[hook].apply(null, argv); })`.
`_.find` iterates the modules in registration order, invoking the hook of each
module that implements it, and returns the first *module* whose hook returned a
truthy value (or `undefined` when none does).  The result records the list of
module names whose hook implementations were actually invoked, together with
the return value of `_callHooks` itself. -/
def callHooks : List Module → String → List String × JSVal
  | [], _ => ([], JSVal.undef)
  | m :: rest, hook =>
    match m.hooks.lookup hook with
    | none => callHooks rest hook
    | some v =>
      if truthy v then
        ([m.name], JSVal.vmodule m.name)
      else
        let r := callHooks rest hook
        (m.name :: r.1, r.2)

/-! ## Songs and player state -/

/-- A queue entry (`song` object of the core).  `duration` is in milliseconds;
`playbackStart` is the stamped wall-clock time, when present. -/
structure Song where
  id : String
  title : String
  artist : String
  duration : Nat
  backend : String
  upVotes : List String
  downVotes : List String
  oldness : Nat
  playbackStart : Option Nat
  deriving Repr, DecidableEq

/-- `_playerState`: the queue, the now-playing slot and the registered
extension modules.  Backends are modelled by the preparation oracle passed to
the orchestration functions. -/
structure PlayerState where
  queue : List Song
  nowPlaying : Option Song
  modules : List Module
  deriving Repr, DecidableEq

/-- Embedding of `_removeFromQueue(songID)`: splice out the first entry of the
queue array whose `id` matches (the now-playing slot is never touched). -/
def removeFromQueue (songID : String) : List Song → List Song
  | [] => []
  | s :: rest => if s.id = songID then rest else s :: removeFromQueue songID rest

/-- Embedding of `_searchQueue(songID)`: scan the queue array in order, then
check the now-playing slot. -/
def searchQueue (songID : String) (st : PlayerState) : Option Song :=
  match st.queue.find? (fun s => s.id == songID) with
  | some s => some s
  | none =>
    match st.nowPlaying with
    | some np => if np.id = songID then some np else none
    | none => none

/-- Embedding of `_initializeSong(song)`: reset votes, oldness and
`playbackStart`, then push the song onto the queue. -/
def initializeSong (song : Song) (st : PlayerState) : Song × PlayerState :=
  let s : Song :=
    { song with upVotes := [], downVotes := [], oldness := 0, playbackStart := none }
  (s, { st with queue := st.queue ++ [s] })

/-- All ids present in the player state (queue order, then now-playing). -/
def allIds (st : PlayerState) : List String :=
  st.queue.map Song.id ++
    (match st.nowPlaying with
     | some np => [np.id]
     | none => [])

/-- Number of entries carrying id `i` across the queue and the now-playing
slot together. -/
def countId (i : String) (st : PlayerState) : Nat :=
  (allIds st).count i

/-! ## Queue orchestration (`_onQueueModify`)

Observable actions are recorded as events: hook dispatches and the arming of
the playback timer.  The preparation oracle `prep` tells, for each song id,
whether `prepareSong` invokes its success or its error continuation. -/

inductive Ev where
  | hookev : String → Ev
  | timerSet : Nat → Ev
  deriving Repr, DecidableEq

/-- The "prepare next song in queue" section of `_onQueueModify`'s success
continuation: if the queue is non-empty, prepare its head; on success dispatch
`onNextSongPrepared` (queue untouched), on failure dispatch
`onNextSongPrepareError` and remove the head from the queue; if the queue is
empty dispatch `onNothingToPrepare`. -/
def nextPrepare (prep : String → Bool) (q : List Song) : List Song × List Ev :=
  match q with
  | [] => (q, [Ev.hookev "onNothingToPrepare"])
  | n :: _ =>
    if prep n.id then
      (q, [Ev.hookev "onNextSongPrepared"])
    else
      (removeFromQueue n.id q, [Ev.hookev "onNextSongPrepareError"])

/-- Embedding of `_onQueueModify()`.  Returns the resulting player state, the
trace of events (hook dispatches and timer arming in program order), and the
duration of the playback timer armed by this call, if any.

* empty queue: dispatch `onEndOfQueue` and return;
* now-playing slot empty: shift the queue head into now-playing, run
  `_removeFromQueue` on its id, and prepare it with `startPlayingNext = true`:
  on success dispatch `onSongPrepared`, stamp `playbackStart`, dispatch
  `onSongChange`, arm a timer of `duration + songDelayMs`, then run the
  next-song preparation section; on failure dispatch `onSongPrepareError` and
  run `_removeFromQueue` on the now-playing id (the now-playing slot itself is
  not cleared by the source);
* now-playing slot occupied: re-prepare it with `startPlayingNext = false`
  (no stamping, no timer). -/
def onQueueModify (prep : String → Bool) (delay now : Nat) (st : PlayerState) :
    PlayerState × List Ev × Option Nat :=
  match st.queue, st.nowPlaying with
  | [], _ => (st, [Ev.hookev "onEndOfQueue"], none)
  | h :: rest, none =>
    let q1 := removeFromQueue h.id rest
    if prep h.id then
      let timer := h.duration + delay
      let np : Song := { h with playbackStart := some now }
      let r := nextPrepare prep q1
      ({ queue := r.1, nowPlaying := some np, modules := st.modules },
        Ev.hookev "onSongPrepared" :: Ev.hookev "onSongChange" ::
          Ev.timerSet timer :: r.2,
        some timer)
    else
      ({ queue := removeFromQueue h.id q1, nowPlaying := some h, modules := st.modules },
        [Ev.hookev "onSongPrepareError"], none)
  | q, some np =>
    if prep np.id then
      let r := nextPrepare prep q
      ({ queue := r.1, nowPlaying := some np, modules := st.modules },
        Ev.hookev "onSongPrepared" :: r.2, none)
    else
      ({ queue := removeFromQueue np.id q, nowPlaying := some np, modules := st.modules },
        [Ev.hookev "onSongPrepareError"], none)

/-- Embedding of the `setTimeout` callback armed by `_onQueueModify`:
dispatch `onSongEnd`, clear the now-playing slot, recursively invoke
`_onQueueModify()`. -/
def songEndFire (prep : String → Bool) (delay now : Nat) (st : PlayerState) :
    PlayerState × List Ev × Option Nat :=
  let st1 : PlayerState := { st with nowPlaying := none }
  let r := onQueueModify prep delay now st1
  (r.1, Ev.hookev "onSongEnd" :: r.2.1, r.2.2)

/-- Embedding of `_addToQueue(song)`.  `userID` is `req.body.userID` of the
enclosing request.  Returns the value `_addToQueue` returns (`undefined` on
success, an error string on rejection, or the `preSongQueued` dispatch result
on veto), the resulting player state, and the trace of events. -/
def addToQueue (prep : String → Bool) (userID : Option String) (delay now : Nat)
    (song : Song) (st : PlayerState) : JSVal × PlayerState × List Ev :=
  if song.title = "" ∨ song.id = "" ∨ song.duration = 0 then
    (JSVal.vstr "required song fields not provided", st, [])
  else if truthyStrOpt userID = false then
    (JSVal.vstr "invalid userID", st, [])
  else
    match searchQueue song.id st with
    | some _ => (JSVal.vstr "duplicate songID", st, [])
    | none =>
      let err := (callHooks st.modules "preSongQueued").2
      if truthy err then
        (err, st, [Ev.hookev "preSongQueued"])
      else
        let r := initializeSong song st
        let r2 := onQueueModify prep delay now r.2
        (JSVal.undef, r2.1,
          Ev.hookev "preSongQueued" :: r2.2.1 ++ [Ev.hookev "postSongQueued"])

/-! ## Local backend: song preparation (`Local.prototype.prepare`)

The synchronous part of `prepare` either rejects immediately (`callback(null,
null, false)` when a preparation handle is already attached, `callback(null,
null, true)` when the cached file already exists) or attaches a fresh
`song.prepare` handle, registers the song in `songsPreparing`, and issues the
asynchronous `SongModel.findById` lookup.  The lookup's continuation is
embedded separately as `findByIdCont`. -/

/-- The `song.prepare` handle: the `canceled` flag, whether a `cancelEncode`
callback has been captured, and the write-buffer position. -/
structure PrepHandle where
  canceled : Bool
  cancelEncodeSet : Bool
  dataPos : Nat
  deriving Repr, DecidableEq

/-- What the synchronous part of `Local.prototype.prepare` did. -/
inductive PrepCall where
  | alreadyPreparing : PrepCall
  | alreadyPrepared : PrepCall
  | started : PrepCall
  deriving Repr, DecidableEq

/-- State of the local backend relevant to preparation: the `songsPreparing`
map (song id → attached handle) and the set of song ids whose cached `.opus`
file already exists (`isPrepared`). -/
structure LocalState where
  songsPreparing : List (String × PrepHandle)
  prepared : List String
  deriving Repr, DecidableEq

/-- Embedding of the synchronous part of `Local.prototype.prepare(song, callback)`:

* `songsPreparing[song.songId]` set → signal "already preparing" and return,
  touching nothing;
* `isPrepared(song)` → signal "already prepared" and return;
* otherwise attach a fresh handle (`canceled = false`, no `cancelEncode`
  captured yet, `dataPos = 0`), record the song in `songsPreparing`, and start
  the asynchronous `findById` lookup. -/
def localPrepare (st : LocalState) (songId : String) : LocalState × PrepCall :=
  if (st.songsPreparing.lookup songId).isSome then
    (st, PrepCall.alreadyPreparing)
  else if st.prepared.contains songId then
    (st, PrepCall.alreadyPrepared)
  else
    ({ st with
        songsPreparing :=
          (songId, { canceled := false, cancelEncodeSet := false, dataPos := 0 }) ::
            st.songsPreparing },
      PrepCall.started)

/-- Embedding of `song.prepare.cancel()`: set the `canceled` flag and report
whether a captured `cancelEncode` callback was invoked. -/
def handleCancel (h : PrepHandle) : PrepHandle × Bool :=
  ({ h with canceled := true }, h.cancelEncodeSet)

/-- Outcome reported by a preparation attempt's completion. -/
inductive PrepOutcome where
  | cancelErr : PrepOutcome
  | notFoundErr : PrepOutcome
  | encodeStarted : PrepOutcome
  deriving Repr, DecidableEq

/-- Embedding of the `SongModel.findById` continuation inside
`Local.prototype.prepare`: if the handle was canceled in the meantime, report
`Error('song was canceled before encoding started')`; else if the catalog item
exists, start encoding; else report `Error('song not found in local db')`. -/
def findByIdCont (h : PrepHandle) (itemFound : Bool) : PrepOutcome :=
  if h.canceled then PrepOutcome.cancelErr
  else if itemFound then PrepOutcome.encodeStarted
  else PrepOutcome.notFoundErr

/-! ## Local backend: catalog search (`Local.prototype.search`) -/

/-- A catalog item as returned by `SongModel.find` (already `toObject`ed). -/
structure CatalogItem where
  idStr : String
  artist : String
  title : String
  album : String
  duration : ℚ
  deriving Repr, DecidableEq

/-- One entry of `results.songs`. -/
structure SearchRes where
  artist : String
  title : String
  album : String
  albumArt : Option String
  duration : ℚ
  songId : String
  score : ℚ
  backendName : String
  format : String
  deriving Repr, DecidableEq

/-- `results.songs[song._id] = {...}` on a JavaScript object: overwrite when
the key exists, otherwise add a new key (insertion order preserved). -/
def upsertRes (k : String) (v : SearchRes) (l : List (String × SearchRes)) :
    List (String × SearchRes) :=
  if l.any (fun p => p.1 == k) then
    l.map (fun p => if p.1 = k then (k, v) else p)
  else
    l ++ [(k, v)]

/-- The result entry built for `song` at inclusion rank `cur` out of
`numItems` total matches. -/
def mkSearchRes (maxScore : ℚ) (numItems cur : Nat) (it : CatalogItem) : SearchRes :=
  { artist := it.artist
    title := it.title
    album := it.album
    albumArt := none
    duration := it.duration
    songId := it.idStr
    score := maxScore * ((numItems : ℚ) - (cur : ℚ)) / (numItems : ℚ)
    backendName := "local"
    format := "opus" }

/-- Embedding of the `items.forEach` loop of `Local.prototype.search`: `acc`
is `results.songs` (an insertion-ordered object) and `cur` the running
inclusion counter; an item is added only while
`Object.keys(results.songs).length <= searchResultCnt`. -/
def searchLoop (maxScore : ℚ) (cnt numItems : Nat) :
    List CatalogItem → List (String × SearchRes) → Nat → List (String × SearchRes)
  | [], acc, _ => acc
  | it :: rest, acc, cur =>
    if acc.length ≤ cnt then
      searchLoop maxScore cnt numItems rest
        (upsertRes it.idStr (mkSearchRes maxScore numItems cur it) acc) (cur + 1)
    else
      searchLoop maxScore cnt numItems rest acc cur

/-- Embedding of the result-building part of `Local.prototype.search` applied
to the storage-returned match list `items`. -/
def searchResults (maxScore : ℚ) (cnt : Nat) (items : List CatalogItem) :
    List (String × SearchRes) :=
  searchLoop maxScore cnt items.length items [] 0

/-- Characterization helper for `searchLoop` (used only in proofs): the first
`budget` items, each scored at its inclusion rank counting from `cur`. -/
def takeScored (maxScore : ℚ) (numItems : Nat) :
    Nat → List CatalogItem → Nat → List (String × SearchRes)
  | 0, _, _ => []
  | _ + 1, [], _ => []
  | budget + 1, it :: rest, cur =>
    (it.idStr, mkSearchRes maxScore numItems cur it) ::
      takeScored maxScore numItems budget rest (cur + 1)

/-! ## Local backend: ingestion metadata (`guessMetadataFromPath`, `insertSong`)

JavaScript string/path primitives are embedded over `List Char`. -/

/-- Whitespace as trimmed by JavaScript `String.prototype.trim` (ASCII part). -/
def isWs (c : Char) : Bool :=
  c = ' ' ∨ c = '\t' ∨ c = '\n' ∨ c = '\r'

/-- `trim`: drop whitespace from both ends. -/
def trimChars (l : List Char) : List Char :=
  ((l.dropWhile isWs).reverse.dropWhile isWs).reverse

/-- JavaScript `String.prototype.trim` on a Lean string. -/
def jsTrim (s : String) : String :=
  ⟨trimChars s.data⟩

/-- Worker for `jsSplitChar`: `acc` holds the current piece reversed. -/
def splitCharAux (sep : Char) : List Char → List Char → List (List Char)
  | [], acc => [acc.reverse]
  | c :: cs, acc =>
    if c = sep then acc.reverse :: splitCharAux sep cs []
    else splitCharAux sep cs (c :: acc)

/-- JavaScript `str.split(sep)` for a single-character separator: split at
every occurrence of `sep`. -/
def jsSplitChar (sep : Char) (s : String) : List String :=
  (splitCharAux sep s.data []).map (fun l => ⟨l⟩)

/-- The last path component of `l`, i.e. everything after the final `'/'`. -/
def lastComponent (l : List Char) : List Char :=
  (l.reverse.takeWhile (fun c => c ≠ '/')).reverse

/-- Node `path.basename(p)` (POSIX, no trailing-slash handling needed for the
paths produced by the directory walk). -/
def jsBasename (p : String) : String :=
  ⟨lastComponent p.data⟩

/-- Node `path.basename(p, ext)`: the basename, with `ext` stripped when the
basename ends with `ext` and is not `ext` itself. -/
def jsBasenameExt (p ext : String) : String :=
  if (jsBasename p).data ≠ ext.data ∧
      (jsBasename p).data.drop ((jsBasename p).data.length - ext.data.length) =
        ext.data then
    ⟨(jsBasename p).data.take ((jsBasename p).data.length - ext.data.length)⟩
  else jsBasename p

/-- Node `path.dirname(p)` (POSIX): everything before the final `'/'`,
`"."` when there is no `'/'`, `"/"` for root-direct children. -/
def jsDirname (p : String) : String :=
  if p.data.reverse.dropWhile (fun c => c ≠ '/') = [] then "."
  else if (p.data.reverse.dropWhile (fun c => c ≠ '/')).tail = [] then "/"
  else ⟨(p.data.reverse.dropWhile (fun c => c ≠ '/')).tail.reverse⟩

/-- Metadata guessed from a file path; `artist`/`title` are `none` when the
corresponding split piece does not exist (JavaScript `undefined`). -/
structure GuessedMeta where
  artist : Option String
  title : Option String
  album : String
  deriving Repr, DecidableEq

/-- Embedding of `guessMetadataFromPath(filePath, fileExt)`: take the basename
without the extension, split it at every `'-'`, trim each piece; the artist is
piece 0, the title piece 1, and the album the containing directory's name. -/
def guessMetadataFromPath (filePath fileExt : String) : GuessedMeta :=
  let fileName := jsBasenameExt filePath fileExt
  let splitName := (jsSplitChar '-' fileName).map jsTrim
  { artist := splitName[0]?
    title := splitName[1]?
    album := jsBasename (jsDirname filePath) }

/-- `probeData` as consumed by `insertSong`: the file path, its extension, the
(upper-cased-key) tag metadata fields, and the probed format data. -/
structure ProbeData where
  file : String
  fileext : String
  metaTITLE : Option String
  metaARTIST : Option String
  metaALBUM : Option String
  durationSec : ℚ
  formatName : String
  deriving Repr, DecidableEq

/-- JavaScript `a || b` on optional strings: `a` wins iff present and
non-empty. -/
def jsOrOpt (a b : Option String) : Option String :=
  match a with
  | some s => if s = "" then b else some s
  | none => b

/-- The catalog document built by `insertSong` and upserted keyed by
`filename`. -/
structure CatalogSong where
  title : Option String
  artist : Option String
  album : Option String
  duration : ℚ
  format : String
  filename : String
  deriving Repr, DecidableEq

/-- Embedding of the document construction in `insertSong(probeData, done)`:
each of title/artist/album falls back to the path-derived guess when the tag
field is absent (or empty, per `||`); duration is seconds × 1000; the document
is keyed by the absolute filename. -/
def insertSong (p : ProbeData) : CatalogSong :=
  let g := guessMetadataFromPath p.file p.fileext
  { title := jsOrOpt p.metaTITLE g.title
    artist := jsOrOpt p.metaARTIST g.artist
    album := jsOrOpt p.metaALBUM (some g.album)
    duration := p.durationSec * 1000
    format := p.formatName
    filename := p.file }

/-- Upsert a catalog document into the song collection keyed by `filename`
(`findOneAndUpdate` with `upsert: true`): overwrite the existing document with
the same filename, or append. -/
def catalogUpsert (doc : CatalogSong) (coll : List CatalogSong) : List CatalogSong :=
  if coll.any (fun d => d.filename == doc.filename) then
    coll.map (fun d => if d.filename = doc.filename then doc else d)
  else
    coll ++ [doc]

/-! ## General lemmas -/

theorem countId_eq_zero_iff_not_mem (i : String) (st : PlayerState) :
    countId i st = 0 ↔ i ∉ allIds st :=
  List.count_eq_zero

theorem searchQueue_eq_none_iff (songID : String) (st : PlayerState) :
    searchQueue songID st = none ↔ countId songID st = 0 := by
  rw [countId_eq_zero_iff_not_mem]
  unfold searchQueue allIds
  cases hf : st.queue.find? (fun s => s.id == songID) with
  | some s =>
    have hmem : songID ∈ st.queue.map Song.id := by
      refine List.mem_map.mpr ⟨s, List.mem_of_find?_eq_some hf, ?_⟩
      have hp := List.find?_some hf
      simpa using hp
    constructor
    · intro h; cases h
    · intro h; exact absurd (List.mem_append_left _ hmem) h
  | none =>
    have hnq : songID ∉ st.queue.map Song.id := by
      intro hm
      obtain ⟨s, hs, hid⟩ := List.mem_map.mp hm
      have := List.find?_eq_none.mp hf s hs
      simp [hid] at this
    cases st.nowPlaying with
    | none => simpa using hnq
    | some np =>
      by_cases h : np.id = songID
      · simp [h]
      · have h2 : ¬songID = np.id := fun he => h he.symm
        simp [h, h2, hnq]

theorem removeFromQueue_not_mem (i : String) (q : List Song)
    (h : i ∉ q.map Song.id) : removeFromQueue i q = q := by
  induction q with
  | nil => rfl
  | cons s rest ih =>
    simp only [List.map_cons, List.mem_cons] at h
    push_neg at h
    unfold removeFromQueue
    rw [if_neg (by exact fun hc => h.1 hc.symm), ih h.2]

theorem nextPrepare_all_success (prep : String → Bool) (q : List Song)
    (hp : ∀ i, prep i = true) : (nextPrepare prep q).1 = q := by
  cases q with
  | nil => rfl
  | cons n rest => simp [nextPrepare, hp n.id]

/-- The events emitted by `nextPrepare` never include `onSongEnd`. -/
theorem nextPrepare_no_onSongEnd (prep : String → Bool) (q : List Song) :
    Ev.hookev "onSongEnd" ∉ (nextPrepare prep q).2 := by
  cases q with
  | nil => simp [nextPrepare]
  | cons n rest =>
    by_cases hn : prep n.id <;> simp [nextPrepare, hn]

/-- `_onQueueModify` never dispatches `onSongEnd` (that hook only fires from
the playback timer callback). -/
theorem onQueueModify_no_onSongEnd (prep : String → Bool) (delay now : Nat)
    (st : PlayerState) :
    Ev.hookev "onSongEnd" ∉ (onQueueModify prep delay now st).2.1 := by
  obtain ⟨q, np, ms⟩ := st
  cases q with
  | nil => simp [onQueueModify]
  | cons h rest =>
    cases np with
    | none =>
      by_cases hp : prep h.id <;>
        simp [onQueueModify, hp, nextPrepare_no_onSongEnd prep (removeFromQueue h.id rest)]
    | some np =>
      by_cases hp : prep np.id <;>
        simp [onQueueModify, hp, nextPrepare_no_onSongEnd prep (h :: rest)]

/-- With every preparation succeeding and ids unique, `_onQueueModify`
preserves the number of entries carrying each id. -/
theorem onQueueModify_countId (prep : String → Bool) (delay now : Nat)
    (st : PlayerState) (i : String)
    (hp : ∀ j, prep j = true) (hnd : (allIds st).Nodup) :
    countId i (onQueueModify prep delay now st).1 = countId i st := by
  obtain ⟨q, np, ms⟩ := st
  cases q with
  | nil => cases np <;> rfl
  | cons h rest =>
    cases np with
    | none =>
      have hnotmem : h.id ∉ rest.map Song.id := by
        unfold allIds at hnd
        simp only [List.map_cons, List.append_nil] at hnd
        exact (List.nodup_cons.mp hnd).1
      simp only [onQueueModify, hp h.id, if_true,
        removeFromQueue_not_mem h.id rest hnotmem,
        nextPrepare_all_success prep rest hp]
      unfold countId allIds
      by_cases hi : h.id = i
      · simp [List.count_append, hi]
      · have h2 : ¬i = h.id := fun he => hi he.symm
        simp [List.count_append, hi, h2]
    | some np =>
      simp only [onQueueModify, hp np.id, if_true,
        nextPrepare_all_success prep (h :: rest) hp]

theorem lookup_isSome_false_not_mem {β : Type} (l : List (String × β)) (a : String)
    (h : (l.lookup a).isSome = false) : a ∉ l.map Prod.fst := by
  induction l with
  | nil => simp
  | cons p rest ih =>
    obtain ⟨k, v⟩ := p
    simp only [List.lookup] at h
    cases hk : a == k
    · rw [hk] at h
      simp only [List.map_cons, List.mem_cons]
      push_neg
      refine ⟨fun he => ?_, ih h⟩
      rw [he] at hk
      simp at hk
    · rw [hk] at h
      simp at h

/-! ## Claim theorems -/

/-- Claim C1 (code bug evaluation).  When preparation of the now-playing song
fails, the source runs `_removeFromQueue(_playerState.nowPlaying.id)` — which
only scans the queue array — and does not clear `_playerState.nowPlaying`, nor
does the error continuation re-invoke `_onQueueModify`.  Concretely: from the
state with an empty now-playing slot and the single song `s1` queued, a failing
preparation leaves `s1` still occupying the now-playing slot, emits only the
`onSongPrepareError` dispatch, and arms no timer — contradicting the claim that
the failed song is evicted from the now-playing slot and that playback
continues via the recursive queue-modify loop. -/
theorem c1_prepare_error_keeps_nowPlaying :
    onQueueModify (fun _ => false) 100 0
      { queue := [{ id := "s1", title := "T", artist := "", duration := 1000,
                    backend := "local", upVotes := [], downVotes := [],
                    oldness := 0, playbackStart := none }],
        nowPlaying := none, modules := [] } =
      ({ queue := [],
         nowPlaying := some { id := "s1", title := "T", artist := "",
                              duration := 1000, backend := "local", upVotes := [],
                              downVotes := [], oldness := 0, playbackStart := none },
         modules := [] },
        [Ev.hookev "onSongPrepareError"], none) := by
  decide

/-- Claim C2.  If a song's required fields (title, id, duration) are all
present (truthy) but the caller's user id is missing (falsy), `_addToQueue`
returns the error string `'invalid userID'` and leaves the player state
unchanged. -/
theorem c2_missing_userID_rejected (prep : String → Bool) (userID : Option String)
    (delay now : Nat) (song : Song) (st : PlayerState)
    (hT : song.title ≠ "") (hI : song.id ≠ "") (hD : song.duration ≠ 0)
    (hU : truthyStrOpt userID = false) :
    addToQueue prep userID delay now song st =
      (JSVal.vstr "invalid userID", st, []) := by
  unfold addToQueue
  rw [if_neg (by simp [hT, hI, hD]), if_pos hU]

/-- Witness for C2 at a concrete song, empty state and missing user id. -/
theorem c2_missing_userID_rejected_witness :
    addToQueue (fun _ => true) none 100 0
      { id := "s1", title := "T", artist := "", duration := 1000,
        backend := "local", upVotes := [], downVotes := [], oldness := 0,
        playbackStart := none }
      { queue := [], nowPlaying := none, modules := [] } =
      (JSVal.vstr "invalid userID",
        { queue := [], nowPlaying := none, modules := [] }, []) :=
  c2_missing_userID_rejected (fun _ => true) none 100 0 _ _
    (by decide) (by decide) (by decide) (by decide)

/-- Claim C10.  The required-field check of `_addToQueue` tests JavaScript
truthiness, so a present-but-falsy field (empty title, empty id, or zero
duration) is rejected with `'required song fields not provided'` and the
player state is left unchanged. -/
theorem c10_falsy_required_field_rejected (prep : String → Bool)
    (userID : Option String) (delay now : Nat) (song : Song) (st : PlayerState)
    (h : song.title = "" ∨ song.id = "" ∨ song.duration = 0) :
    addToQueue prep userID delay now song st =
      (JSVal.vstr "required song fields not provided", st, []) := by
  unfold addToQueue
  rw [if_pos h]

/-- Witness for C10 at a concrete song with a zero duration. -/
theorem c10_falsy_required_field_rejected_witness :
    addToQueue (fun _ => true) (some "u1") 100 0
      { id := "s1", title := "T", artist := "", duration := 0,
        backend := "local", upVotes := [], downVotes := [], oldness := 0,
        playbackStart := none }
      { queue := [], nowPlaying := none, modules := [] } =
      (JSVal.vstr "required song fields not provided",
        { queue := [], nowPlaying := none, modules := [] }, []) :=
  c10_falsy_required_field_rejected (fun _ => true) (some "u1") 100 0 _ _
    (by decide)

/-- Claim C7.  Preparation exclusivity: starting from a state where no handle
is attached to `songId` and its media is not yet materialized, a first
`prepare` call attaches exactly one handle and starts work, and a second
`prepare` call is rejected synchronously with the "already preparing" signal,
leaving the state (and hence the single attached handle) unchanged. -/
theorem c7_prepare_exclusivity (st : LocalState) (songId : String)
    (h1 : (st.songsPreparing.lookup songId).isSome = false)
    (h2 : st.prepared.contains songId = false) :
    (localPrepare st songId).2 = PrepCall.started ∧
    ((localPrepare st songId).1.songsPreparing.map Prod.fst).count songId = 1 ∧
    localPrepare (localPrepare st songId).1 songId =
      ((localPrepare st songId).1, PrepCall.alreadyPreparing) := by
  have hnotmem : songId ∉ st.songsPreparing.map Prod.fst :=
    lookup_isSome_false_not_mem st.songsPreparing songId h1
  have hcount : (st.songsPreparing.map Prod.fst).count songId = 0 :=
    List.count_eq_zero.mpr hnotmem
  unfold localPrepare
  rw [if_neg (by simp [h1]), if_neg (by simpa using h2)]
  refine ⟨rfl, ?_, ?_⟩
  · simp [List.count_cons, hcount]
  · rw [if_pos (by simp [List.lookup])]

/-- Witness for C7 from the empty local backend state. -/
theorem c7_prepare_exclusivity_witness :
    (localPrepare { songsPreparing := [], prepared := [] } "s1").2 =
        PrepCall.started ∧
    ((localPrepare { songsPreparing := [], prepared := [] } "s1").1.songsPreparing.map
        Prod.fst).count "s1" = 1 ∧
    localPrepare (localPrepare { songsPreparing := [], prepared := [] } "s1").1 "s1" =
      ((localPrepare { songsPreparing := [], prepared := [] } "s1").1,
        PrepCall.alreadyPreparing) :=
  c7_prepare_exclusivity { songsPreparing := [], prepared := [] } "s1"
    (by decide) (by decide)

/-- Claim C8.  A fresh `prepare` call attaches a handle with the `canceled`
flag unset; if `cancel` is invoked on that handle before the `findById`
continuation (the step that starts the underlying encode) runs, the
continuation reports the cancellation error — never success — regardless of
whether the catalog item exists. -/
theorem c8_cancel_before_start_wins (st : LocalState) (songId : String)
    (h1 : (st.songsPreparing.lookup songId).isSome = false)
    (h2 : st.prepared.contains songId = false) :
    (localPrepare st songId).1.songsPreparing.lookup songId =
      some { canceled := false, cancelEncodeSet := false, dataPos := 0 } ∧
    ∀ h : PrepHandle, ∀ itemFound : Bool,
      findByIdCont (handleCancel h).1 itemFound = PrepOutcome.cancelErr ∧
      findByIdCont (handleCancel h).1 itemFound ≠ PrepOutcome.encodeStarted := by
  constructor
  · unfold localPrepare
    rw [if_neg (by simp [h1]), if_neg (by simpa using h2)]
    simp [List.lookup]
  · intro h itemFound
    constructor
    · rfl
    · intro hc
      cases hc

/-- Witness for C8 from the empty local backend state. -/
theorem c8_cancel_before_start_wins_witness :
    (localPrepare { songsPreparing := [], prepared := [] } "s1").1.songsPreparing.lookup
        "s1" = some { canceled := false, cancelEncodeSet := false, dataPos := 0 } ∧
    ∀ h : PrepHandle, ∀ itemFound : Bool,
      findByIdCont (handleCancel h).1 itemFound = PrepOutcome.cancelErr ∧
      findByIdCont (handleCancel h).1 itemFound ≠ PrepOutcome.encodeStarted :=
  c8_cancel_before_start_wins { songsPreparing := [], prepared := [] } "s1"
    (by decide) (by decide)

/-- Counterexample to claim C3.  With modules `A → false`, `B → "err"`,
`C → 2` registered in that order, `_callHooks` invokes only `A` and `B` and
short-circuits at `B` — but its return value is the module object `B` itself
(underscore's `_.find` returns the element, not the predicate's value), not
the hook's return value `"err"` as the claim states. -/
theorem c3_dispatch_counterexample :
    callHooks
      [{ name := "A", hooks := [("h", JSVal.vbool false)] },
       { name := "B", hooks := [("h", JSVal.vstr "err")] },
       { name := "C", hooks := [("h", JSVal.vnum 2)] }] "h" =
      (["A", "B"], JSVal.vmodule "B") ∧
    (callHooks
      [{ name := "A", hooks := [("h", JSVal.vbool false)] },
       { name := "B", hooks := [("h", JSVal.vstr "err")] },
       { name := "C", hooks := [("h", JSVal.vnum 2)] }] "h").2 ≠
      JSVal.vstr "err" := by
  decide

/-- Claim C3 as amended.  `_callHooks` invokes the hook on each implementing
module in registration order and stops at the first module whose hook returns
a truthy value; the modules after it are not invoked, and the dispatch result
is (a reference to) that module — a truthy value, but the module itself rather
than the hook's return value.  (When no hook returns truthy the result is
`undefined`, as the claim says.) -/
theorem c3_dispatch_amended (pre : List Module) (m : Module) (post : List Module)
    (hook : String) (v : JSVal)
    (hpre : ∀ m' ∈ pre, ∀ v', m'.hooks.lookup hook = some v' → truthy v' = false)
    (hm : m.hooks.lookup hook = some v) (hv : truthy v = true) :
    callHooks (pre ++ m :: post) hook =
      ((pre.filter (fun m' => (m'.hooks.lookup hook).isSome)).map Module.name ++
          [m.name],
        JSVal.vmodule m.name) := by
  induction pre with
  | nil =>
    simp only [List.nil_append, List.filter_nil, List.map_nil]
    unfold callHooks
    simp only [hm]
    rw [if_pos hv]
  | cons m' pre' ih =>
    have hrec := ih (fun x hx => hpre x (List.mem_cons_of_mem m' hx))
    simp only [List.cons_append]
    unfold callHooks
    cases hl : m'.hooks.lookup hook with
    | none =>
      simp only [hl]
      rw [List.filter_cons_of_neg (by simp [hl])]
      exact hrec
    | some v' =>
      have hfalse := hpre m' (List.mem_cons_self m' pre') v' hl
      simp only [hl]
      rw [if_neg (by simp [hfalse])]
      rw [List.filter_cons_of_pos (by simp [hl])]
      simp only [List.map_cons, List.cons_append]
      simp [hrec]

/-- Witness for the amended C3 at the concrete scenario `[A → false,
B → "err", C → 2]`. -/
theorem c3_dispatch_amended_witness :
    callHooks
      ([{ name := "A", hooks := [("h", JSVal.vbool false)] }] ++
        { name := "B", hooks := [("h", JSVal.vstr "err")] } ::
          [{ name := "C", hooks := [("h", JSVal.vnum 2)] }]) "h" =
      (([{ name := "A", hooks := [("h", JSVal.vbool false)] }].filter
            (fun m' => (m'.hooks.lookup "h").isSome)).map Module.name ++ ["B"],
        JSVal.vmodule "B") :=
  c3_dispatch_amended
    [{ name := "A", hooks := [("h", JSVal.vbool false)] }]
    { name := "B", hooks := [("h", JSVal.vstr "err")] }
    [{ name := "C", hooks := [("h", JSVal.vnum 2)] }]
    "h" (JSVal.vstr "err") (by decide) (by decide) (by decide)

/-- Counterexample to claim C5.  The inclusion guard of
`Local.prototype.search` is `Object.keys(results.songs).length <=
searchResultCnt`, so with `searchResultCnt = 1` a catalog of two matches
produces two results — more than the claimed cap of `searchResultCnt`
entries. -/
theorem c5_search_cap_counterexample :
    (searchResults 100 1
      [{ idStr := "id1", artist := "a1", title := "t1", album := "al1",
         duration := 1000 },
       { idStr := "id2", artist := "a2", title := "t2", album := "al2",
         duration := 2000 }]).length = 2 ∧
    ¬(searchResults 100 1
      [{ idStr := "id1", artist := "a1", title := "t1", album := "al1",
         duration := 1000 },
       { idStr := "id2", artist := "a2", title := "t2", album := "al2",
         duration := 2000 }]).length ≤ 1 := by
  decide

/-- Counterexample to claim C6.  For the tag-less file
`"Compilation/Artist - Song - Title.flac"`, the claim's pattern (split the
basename at the first `" - "`, title = entire remainder) predicts
`title = "Song - Title"`; the source's `guessMetadataFromPath` splits at
*every* `'-'` and takes piece 1, yielding `title = "Song"`. -/
theorem c6_metadata_counterexample :
    (insertSong { file := "Compilation/Artist - Song - Title.flac",
                  fileext := ".flac", metaTITLE := none, metaARTIST := none,
                  metaALBUM := none, durationSec := 100,
                  formatName := "flac" }).title = some "Song" ∧
    (insertSong { file := "Compilation/Artist - Song - Title.flac",
                  fileext := ".flac", metaTITLE := none, metaARTIST := none,
                  metaALBUM := none, durationSec := 100,
                  formatName := "flac" }).title ≠ some "Song - Title" := by
  decide

/-- The timer callback dispatches `onSongEnd` exactly once: it heads the
callback's event trace and the recursive `_onQueueModify` never emits it. -/
theorem songEndFire_count_onSongEnd (prep : String → Bool) (delay now : Nat)
    (st : PlayerState) :
    (songEndFire prep delay now st).2.1.count (Ev.hookev "onSongEnd") = 1 := by
  unfold songEndFire
  simp [List.count_cons,
    List.count_eq_zero.mpr
      (onQueueModify_no_onSongEnd prep delay now { st with nowPlaying := none })]

/-- Claim C4.  With the now-playing slot empty and the queue non-empty,
`_onQueueModify` promotes the FIFO head `s` into now-playing; on successful
preparation it stamps `playbackStart`, dispatches `onSongChange`, and arms a
single timer of `s.duration + songDelayMs` milliseconds.  When that timer
fires, `onSongEnd` is dispatched exactly once, the now-playing slot is
cleared, and `_onQueueModify` is invoked recursively on the cleared state. -/
theorem c4_promote_stamp_timer_end (prep : String → Bool) (delay now : Nat)
    (st : PlayerState) (s : Song) (rest : List Song)
    (hq : st.queue = s :: rest) (hnp : st.nowPlaying = none)
    (hp : prep s.id = true) :
    (onQueueModify prep delay now st).1.nowPlaying =
        some { s with playbackStart := some now } ∧
    (onQueueModify prep delay now st).2.2 = some (s.duration + delay) ∧
    Ev.hookev "onSongChange" ∈ (onQueueModify prep delay now st).2.1 ∧
    Ev.timerSet (s.duration + delay) ∈ (onQueueModify prep delay now st).2.1 ∧
    ∀ now2 : Nat,
      (songEndFire prep delay now2 (onQueueModify prep delay now st).1).2.1.count
          (Ev.hookev "onSongEnd") = 1 ∧
      (songEndFire prep delay now2 (onQueueModify prep delay now st).1).1 =
        (onQueueModify prep delay now2
          { (onQueueModify prep delay now st).1 with nowPlaying := none }).1 := by
  obtain ⟨q, np, ms⟩ := st
  simp only at hq hnp
  subst hq hnp
  refine ⟨?_, ?_, ?_, ?_, ?_⟩
  · simp [onQueueModify, hp]
  · simp [onQueueModify, hp]
  · simp [onQueueModify, hp]
  · simp [onQueueModify, hp]
  · intro now2
    exact ⟨songEndFire_count_onSongEnd prep delay now2 _, rfl⟩

/-- Witness for C4: a single enqueued song with duration 1000 and delay 100. -/
theorem c4_promote_stamp_timer_end_witness :
    (onQueueModify (fun _ => true) 100 5
        { queue := [{ id := "s1", title := "T", artist := "", duration := 1000,
                      backend := "local", upVotes := [], downVotes := [],
                      oldness := 0, playbackStart := none }],
          nowPlaying := none, modules := [] }).1.nowPlaying =
      some { id := "s1", title := "T", artist := "", duration := 1000,
             backend := "local", upVotes := [], downVotes := [], oldness := 0,
             playbackStart := some 5 } ∧
    (onQueueModify (fun _ => true) 100 5
        { queue := [{ id := "s1", title := "T", artist := "", duration := 1000,
                      backend := "local", upVotes := [], downVotes := [],
                      oldness := 0, playbackStart := none }],
          nowPlaying := none, modules := [] }).2.2 = some (1000 + 100) ∧
    Ev.hookev "onSongChange" ∈
      (onQueueModify (fun _ => true) 100 5
        { queue := [{ id := "s1", title := "T", artist := "", duration := 1000,
                      backend := "local", upVotes := [], downVotes := [],
                      oldness := 0, playbackStart := none }],
          nowPlaying := none, modules := [] }).2.1 ∧
    Ev.timerSet (1000 + 100) ∈
      (onQueueModify (fun _ => true) 100 5
        { queue := [{ id := "s1", title := "T", artist := "", duration := 1000,
                      backend := "local", upVotes := [], downVotes := [],
                      oldness := 0, playbackStart := none }],
          nowPlaying := none, modules := [] }).2.1 ∧
    ∀ now2 : Nat,
      (songEndFire (fun _ => true) 100 now2
          (onQueueModify (fun _ => true) 100 5
            { queue := [{ id := "s1", title := "T", artist := "", duration := 1000,
                          backend := "local", upVotes := [], downVotes := [],
                          oldness := 0, playbackStart := none }],
              nowPlaying := none, modules := [] }).1).2.1.count
        (Ev.hookev "onSongEnd") = 1 ∧
      (songEndFire (fun _ => true) 100 now2
          (onQueueModify (fun _ => true) 100 5
            { queue := [{ id := "s1", title := "T", artist := "", duration := 1000,
                          backend := "local", upVotes := [], downVotes := [],
                          oldness := 0, playbackStart := none }],
              nowPlaying := none, modules := [] }).1).1 =
        (onQueueModify (fun _ => true) 100 now2
          { (onQueueModify (fun _ => true) 100 5
              { queue := [{ id := "s1", title := "T", artist := "", duration := 1000,
                            backend := "local", upVotes := [], downVotes := [],
                            oldness := 0, playbackStart := none }],
                nowPlaying := none, modules := [] }).1 with
            nowPlaying := none }).1 :=
  c4_promote_stamp_timer_end (fun _ => true) 100 5
    { queue := [{ id := "s1", title := "T", artist := "", duration := 1000,
                  backend := "local", upVotes := [], downVotes := [],
                  oldness := 0, playbackStart := none }],
      nowPlaying := none, modules := [] }
    { id := "s1", title := "T", artist := "", duration := 1000,
      backend := "local", upVotes := [], downVotes := [], oldness := 0,
      playbackStart := none }
    [] rfl rfl rfl

/-- Claim C9.  From a state whose ids are unique and do not include
`song.id`, with all preparations succeeding, valid required fields, a valid
user id, and no `preSongQueued` veto: the first `_addToQueue(song)` succeeds
(returns `undefined`), after it exactly one entry with `song.id` exists across
the queue and the now-playing slot together, and a second `_addToQueue` of the
same song returns the error string `'duplicate songID'` while leaving the
state unchanged and dispatching nothing. -/
theorem c9_duplicate_enqueue_rejected (prep : String → Bool)
    (userID : Option String) (delay now : Nat) (song : Song) (st : PlayerState)
    (hT : song.title ≠ "") (hI : song.id ≠ "") (hD : song.duration ≠ 0)
    (hU : truthyStrOpt userID = true)
    (hfresh : countId song.id st = 0)
    (hhook : truthy (callHooks st.modules "preSongQueued").2 = false)
    (hprep : ∀ j, prep j = true)
    (hnd : (allIds st).Nodup) :
    (addToQueue prep userID delay now song st).1 = JSVal.undef ∧
    countId song.id (addToQueue prep userID delay now song st).2.1 = 1 ∧
    addToQueue prep userID delay now song
        (addToQueue prep userID delay now song st).2.1 =
      (JSVal.vstr "duplicate songID",
        (addToQueue prep userID delay now song st).2.1, []) := by
  have hsq : searchQueue song.id st = none :=
    (searchQueue_eq_none_iff song.id st).mpr hfresh
  have e1 : addToQueue prep userID delay now song st =
      (JSVal.undef,
        (onQueueModify prep delay now
          { st with queue := st.queue ++
              [{ song with upVotes := [], downVotes := [], oldness := 0, playbackStart := none }] }).1,
        Ev.hookev "preSongQueued" ::
          (onQueueModify prep delay now
            { st with queue := st.queue ++
                [{ song with upVotes := [], downVotes := [], oldness := 0, playbackStart := none }] }).2.1 ++
          [Ev.hookev "postSongQueued"]) := by
    unfold addToQueue
    rw [if_neg (by simp [hT, hI, hD]), if_neg (by simp [hU])]
    simp only [hsq]
    rw [if_neg (by simp [hhook])]
    simp [initializeSong]
  have hcnt2 : countId song.id
      { st with queue := st.queue ++
          [{ song with upVotes := [], downVotes := [], oldness := 0, playbackStart := none }] } = 1 := by
    unfold countId allIds at hfresh ⊢
    simp only [List.map_append, List.map_cons, List.map_nil, List.append_assoc,
      List.singleton_append] at hfresh ⊢
    rw [List.count_append] at hfresh ⊢
    rw [List.count_cons_self]
    omega
  have hmem : song.id ∉ allIds st := (countId_eq_zero_iff_not_mem _ _).mp hfresh
  have hnd2 : (allIds
      { st with queue := st.queue ++
          [{ song with upVotes := [], downVotes := [], oldness := 0, playbackStart := none }] }).Nodup := by
    unfold allIds at hmem hnd ⊢
    simp only [List.map_append, List.map_cons, List.map_nil, List.append_assoc,
      List.singleton_append] at hmem hnd ⊢
    exact List.nodup_middle.mpr (List.nodup_cons.mpr ⟨hmem, hnd⟩)
  have hcnt3 : countId song.id
      (onQueueModify prep delay now
        { st with queue := st.queue ++
            [{ song with upVotes := [], downVotes := [], oldness := 0, playbackStart := none }] }).1 = 1 := by
    rw [onQueueModify_countId prep delay now _ song.id hprep hnd2]
    exact hcnt2
  refine ⟨by rw [e1], by rw [e1]; exact hcnt3, ?_⟩
  rw [e1]
  unfold addToQueue
  rw [if_neg (by simp [hT, hI, hD]), if_neg (by simp [hU])]
  cases hx : searchQueue song.id
      (onQueueModify prep delay now
        { st with queue := st.queue ++
            [{ song with upVotes := [], downVotes := [], oldness := 0, playbackStart := none }] }).1 with
  | none =>
    exfalso
    rw [searchQueue_eq_none_iff] at hx
    omega
  | some s2 => simp only [hx]

/-- Witness for C9: one fresh song enqueued twice into the empty state. -/
theorem c9_duplicate_enqueue_rejected_witness :
    (addToQueue (fun _ => true) (some "u1") 100 0
        { id := "s1", title := "T", artist := "", duration := 1000,
          backend := "local", upVotes := [], downVotes := [], oldness := 0,
          playbackStart := none }
        { queue := [], nowPlaying := none, modules := [] }).1 = JSVal.undef ∧
    countId "s1"
      (addToQueue (fun _ => true) (some "u1") 100 0
        { id := "s1", title := "T", artist := "", duration := 1000,
          backend := "local", upVotes := [], downVotes := [], oldness := 0,
          playbackStart := none }
        { queue := [], nowPlaying := none, modules := [] }).2.1 = 1 ∧
    addToQueue (fun _ => true) (some "u1") 100 0
        { id := "s1", title := "T", artist := "", duration := 1000,
          backend := "local", upVotes := [], downVotes := [], oldness := 0,
          playbackStart := none }
        ((addToQueue (fun _ => true) (some "u1") 100 0
          { id := "s1", title := "T", artist := "", duration := 1000,
            backend := "local", upVotes := [], downVotes := [], oldness := 0,
            playbackStart := none }
          { queue := [], nowPlaying := none, modules := [] }).2.1) =
      (JSVal.vstr "duplicate songID",
        (addToQueue (fun _ => true) (some "u1") 100 0
          { id := "s1", title := "T", artist := "", duration := 1000,
            backend := "local", upVotes := [], downVotes := [], oldness := 0,
            playbackStart := none }
          { queue := [], nowPlaying := none, modules := [] }).2.1, []) :=
  c9_duplicate_enqueue_rejected (fun _ => true) (some "u1") 100 0
    { id := "s1", title := "T", artist := "", duration := 1000,
      backend := "local", upVotes := [], downVotes := [], oldness := 0,
      playbackStart := none }
    { queue := [], nowPlaying := none, modules := [] }
    (by decide) (by decide) (by decide) (by decide) (by decide) (by decide)
    (fun _ => rfl) (by decide)

theorem upsertRes_fresh (k : String) (v : SearchRes)
    (l : List (String × SearchRes)) (h : k ∉ l.map Prod.fst) :
    upsertRes k v l = l ++ [(k, v)] := by
  unfold upsertRes
  rw [if_neg]
  intro hc
  rw [List.any_eq_true] at hc
  obtain ⟨p, hp, hbeq⟩ := hc
  exact h (List.mem_map.mpr ⟨p, hp, by simpa using hbeq⟩)

theorem searchLoop_eq_takeScored (maxScore : ℚ) (cnt numItems : Nat)
    (items : List CatalogItem) (acc : List (String × SearchRes)) (cur : Nat)
    (hnd : (items.map CatalogItem.idStr).Nodup)
    (hdisj : ∀ it ∈ items, it.idStr ∉ acc.map Prod.fst) :
    searchLoop maxScore cnt numItems items acc cur =
      acc ++ takeScored maxScore numItems (cnt + 1 - acc.length) items cur := by
  induction items generalizing acc cur with
  | nil =>
    cases hb : cnt + 1 - acc.length with
    | zero => simp [searchLoop, takeScored]
    | succ b => simp [searchLoop, takeScored]
  | cons it rest ih =>
    have hnd2 : (rest.map CatalogItem.idStr).Nodup := by
      simp only [List.map_cons, List.nodup_cons] at hnd
      exact hnd.2
    by_cases hle : acc.length ≤ cnt
    · have hfresh : it.idStr ∉ acc.map Prod.fst :=
        hdisj it (List.mem_cons_self it rest)
      have hstep : upsertRes it.idStr (mkSearchRes maxScore numItems cur it) acc =
          acc ++ [(it.idStr, mkSearchRes maxScore numItems cur it)] :=
        upsertRes_fresh _ _ _ hfresh
      have hdisj2 : ∀ r ∈ rest,
          r.idStr ∉ (acc ++
            [(it.idStr, mkSearchRes maxScore numItems cur it)]).map Prod.fst := by
        intro r hr
        simp only [List.map_append, List.map_cons, List.map_nil, List.mem_append,
          List.mem_cons, List.not_mem_nil]
        push_neg
        refine ⟨fun hm => hdisj r (List.mem_cons_of_mem it hr) hm, ?_, fun hf => hf⟩
        intro he
        simp only [List.map_cons, List.nodup_cons] at hnd
        exact hnd.1 (he ▸ List.mem_map.mpr ⟨r, hr, rfl⟩)
      calc searchLoop maxScore cnt numItems (it :: rest) acc cur
          = searchLoop maxScore cnt numItems rest
              (acc ++ [(it.idStr, mkSearchRes maxScore numItems cur it)])
              (cur + 1) := by
            show (if acc.length ≤ cnt then
                searchLoop maxScore cnt numItems rest
                  (upsertRes it.idStr (mkSearchRes maxScore numItems cur it) acc)
                  (cur + 1)
              else searchLoop maxScore cnt numItems rest acc cur) =
              searchLoop maxScore cnt numItems rest
                (acc ++ [(it.idStr, mkSearchRes maxScore numItems cur it)]) (cur + 1)
            rw [if_pos hle, hstep]
        _ = (acc ++ [(it.idStr, mkSearchRes maxScore numItems cur it)]) ++
              takeScored maxScore numItems
                (cnt + 1 -
                  (acc ++
                    [(it.idStr, mkSearchRes maxScore numItems cur it)]).length)
                rest (cur + 1) := ih _ _ hnd2 hdisj2
        _ = acc ++ takeScored maxScore numItems (cnt + 1 - acc.length)
              (it :: rest) cur := by
            have hb1 : (acc ++
                [(it.idStr, mkSearchRes maxScore numItems cur it)]).length =
                acc.length + 1 := by simp
            have hb2 : cnt + 1 - acc.length = (cnt - acc.length) + 1 := by omega
            have hb3 : cnt + 1 - (acc.length + 1) = cnt - acc.length := by omega
            rw [hb1, hb2, hb3, List.append_assoc, List.singleton_append]
            rfl
    · have hb0 : cnt + 1 - acc.length = 0 := by omega
      unfold searchLoop
      rw [if_neg hle]
      rw [ih acc cur hnd2 (fun r hr => hdisj r (List.mem_cons_of_mem it hr))]
      rw [hb0]
      have hb0b : cnt + 1 - acc.length = 0 := hb0
      rfl

theorem searchResults_eq_takeScored (maxScore : ℚ) (cnt : Nat)
    (items : List CatalogItem) (hnd : (items.map CatalogItem.idStr).Nodup) :
    searchResults maxScore cnt items =
      takeScored maxScore items.length (cnt + 1) items 0 := by
  unfold searchResults
  rw [searchLoop_eq_takeScored maxScore cnt items.length items [] 0 hnd (by simp)]
  simp

theorem takeScored_length_le (maxScore : ℚ) (numItems : Nat) (budget : Nat)
    (items : List CatalogItem) (cur : Nat) :
    (takeScored maxScore numItems budget items cur).length ≤ budget := by
  induction budget generalizing items cur with
  | zero => simp [takeScored]
  | succ b ih =>
    cases items with
    | nil => simp [takeScored]
    | cons it rest =>
      simp only [takeScored, List.length_cons]
      exact Nat.succ_le_succ (ih rest (cur + 1))

theorem takeScored_get_score (maxScore : ℚ) (numItems : Nat) (budget : Nat)
    (items : List CatalogItem) (cur : Nat) (k : Nat)
    (hk : k < (takeScored maxScore numItems budget items cur).length) :
    ((takeScored maxScore numItems budget items cur).get ⟨k, hk⟩).2.score =
      maxScore * ((numItems : ℚ) - ((cur + k : Nat) : ℚ)) / (numItems : ℚ) := by
  induction budget generalizing items cur k with
  | zero => simp [takeScored] at hk
  | succ b ih =>
    cases items with
    | nil => simp [takeScored] at hk
    | cons it rest =>
      cases k with
      | zero => simp [takeScored, mkSearchRes]
      | succ k2 =>
        have hk2 : k2 < (takeScored maxScore numItems b rest (cur + 1)).length := by
          simp only [takeScored, List.length_cons] at hk
          omega
        have hrec := ih rest (cur + 1) k2 hk2
        have hget : ((takeScored maxScore numItems (b + 1) (it :: rest) cur).get
              ⟨k2 + 1, hk⟩) =
            ((takeScored maxScore numItems b rest (cur + 1)).get ⟨k2, hk2⟩) := rfl
        rw [hget, hrec]
        have harg : cur + 1 + k2 = cur + (k2 + 1) := by omega
        rw [harg]

/-- Claim C5 as amended.  With distinct storage ids, `Local.prototype.search`
returns at most `searchResultCnt + 1` entries (the guard is `<=`, one more
than the claimed cap), and the result at inclusion rank `k` carries score
`maxScore × (total − k) / total` where `total` is the number of storage
matches — the score formula of the claim, under the corrected cap. -/
theorem c5_search_cap_amended (maxScore : ℚ) (cnt : Nat)
    (items : List CatalogItem) (hnd : (items.map CatalogItem.idStr).Nodup) :
    (searchResults maxScore cnt items).length ≤ cnt + 1 ∧
    ∀ k, ∀ hk : k < (searchResults maxScore cnt items).length,
      ((searchResults maxScore cnt items).get ⟨k, hk⟩).2.score =
        maxScore * ((items.length : ℚ) - (k : ℚ)) / (items.length : ℚ) := by
  have he := searchResults_eq_takeScored maxScore cnt items hnd
  constructor
  · rw [he]
    exact takeScored_length_le maxScore items.length (cnt + 1) items 0
  · intro k
    rw [he]
    intro hk2
    rw [takeScored_get_score maxScore items.length (cnt + 1) items 0 k hk2]
    norm_num

/-- Witness for the amended C5: two distinct catalog items, cap 1. -/
theorem c5_search_cap_amended_witness :
    (searchResults 100 1
      [{ idStr := "id1", artist := "a1", title := "t1", album := "al1", duration := 1000 },
       { idStr := "id2", artist := "a2", title := "t2", album := "al2", duration := 2000 }]).length ≤
      1 + 1 ∧
    ∀ k, ∀ hk : k < (searchResults 100 1
      [{ idStr := "id1", artist := "a1", title := "t1", album := "al1", duration := 1000 },
       { idStr := "id2", artist := "a2", title := "t2", album := "al2", duration := 2000 }]).length,
      ((searchResults 100 1
        [{ idStr := "id1", artist := "a1", title := "t1", album := "al1", duration := 1000 },
         { idStr := "id2", artist := "a2", title := "t2", album := "al2", duration := 2000 }]).get
          ⟨k, hk⟩).2.score =
        100 * (((2 : Nat) : ℚ) - (k : ℚ)) / ((2 : Nat) : ℚ) :=
  c5_search_cap_amended 100 1
    [{ idStr := "id1", artist := "a1", title := "t1", album := "al1", duration := 1000 },
     { idStr := "id2", artist := "a2", title := "t2", album := "al2", duration := 2000 }]
    (by decide)

/-! ## String lemmas for the ingestion metadata claims -/

theorem takeWhile_eq_self_of_all {p : Char → Bool} (l : List Char)
    (h : ∀ c ∈ l, p c = true) : l.takeWhile p = l := by
  induction l with
  | nil => rfl
  | cons c cs ih =>
    rw [List.takeWhile_cons, if_pos (h c (List.mem_cons_self c cs)),
      ih (fun x hx => h x (List.mem_cons_of_mem c hx))]

theorem takeWhile_append_stop {p : Char → Bool} (l1 : List Char) (x : Char)
    (l2 : List Char) (h1 : ∀ c ∈ l1, p c = true) (hx : p x = false) :
    (l1 ++ x :: l2).takeWhile p = l1 := by
  induction l1 with
  | nil => simp [List.takeWhile_cons, hx]
  | cons c cs ih =>
    rw [List.cons_append, List.takeWhile_cons,
      if_pos (h1 c (List.mem_cons_self c cs)),
      ih (fun y hy => h1 y (List.mem_cons_of_mem c hy))]

theorem dropWhile_append_stop {p : Char → Bool} (l1 : List Char) (x : Char)
    (l2 : List Char) (h1 : ∀ c ∈ l1, p c = true) (hx : p x = false) :
    (l1 ++ x :: l2).dropWhile p = x :: l2 := by
  induction l1 with
  | nil => simp [List.dropWhile_cons, hx]
  | cons c cs ih =>
    rw [List.cons_append, List.dropWhile_cons,
      if_pos (h1 c (List.mem_cons_self c cs)),
      ih (fun y hy => h1 y (List.mem_cons_of_mem c hy))]

theorem length_dropWhile_le (p : Char → Bool) (l : List Char) :
    (l.dropWhile p).length ≤ l.length := by
  induction l with
  | nil => simp
  | cons a l ih =>
    rw [List.dropWhile_cons]
    by_cases h : p a = true
    · rw [if_pos h]
      exact Nat.le_succ_of_le ih
    · rw [if_neg h]

theorem data_append_slash (D M : String) :
    (D ++ "/" ++ M).data = D.data ++ '/' :: M.data := by
  rw [String.data_append, String.data_append]
  have h : ("/" : String).data = ['/'] := rfl
  rw [h, List.append_assoc, List.singleton_append]

theorem not_slash_decide {M : String} (hM : '/' ∉ M.data) :
    ∀ c ∈ M.data.reverse, (decide ¬c = '/') = true := by
  intro c hc
  rw [List.mem_reverse] at hc
  exact decide_eq_true (fun he => hM (he ▸ hc))

theorem jsBasename_append (D M : String) (hM : '/' ∉ M.data) :
    jsBasename (D ++ "/" ++ M) = M := by
  unfold jsBasename lastComponent
  apply String.ext
  show ((D ++ "/" ++ M).data.reverse.takeWhile (fun c => c ≠ '/')).reverse = M.data
  rw [data_append_slash, List.reverse_append, List.reverse_cons, List.append_assoc,
    List.singleton_append]
  rw [takeWhile_append_stop M.data.reverse '/' D.data.reverse
    (not_slash_decide hM) (by decide)]
  exact List.reverse_reverse M.data

theorem jsBasename_no_slash (M : String) (hM : '/' ∉ M.data) :
    jsBasename M = M := by
  unfold jsBasename lastComponent
  apply String.ext
  show (M.data.reverse.takeWhile (fun c => c ≠ '/')).reverse = M.data
  rw [takeWhile_eq_self_of_all M.data.reverse (not_slash_decide hM)]
  exact List.reverse_reverse M.data

theorem jsDirname_append (D M : String) (hM : '/' ∉ M.data)
    (hD0 : D.data ≠ []) :
    jsDirname (D ++ "/" ++ M) = D := by
  unfold jsDirname
  rw [data_append_slash, List.reverse_append, List.reverse_cons, List.append_assoc,
    List.singleton_append]
  rw [dropWhile_append_stop M.data.reverse '/' D.data.reverse
    (not_slash_decide hM) (by decide)]
  rw [if_neg (by simp)]
  rw [if_neg (by simpa using fun hc => hD0 (by simpa using congrArg List.reverse hc))]
  apply String.ext
  show D.data.reverse.reverse = D.data
  exact List.reverse_reverse D.data

theorem jsBasenameExt_strip (D X E : String) (hX : '/' ∉ X.data)
    (hE : '/' ∉ E.data) (hX0 : X.data ≠ []) :
    jsBasenameExt (D ++ "/" ++ (X ++ E)) E = X := by
  have hXE : '/' ∉ (X ++ E).data := by
    rw [String.data_append]
    intro hc
    rcases List.mem_append.mp hc with h | h
    · exact hX h
    · exact hE h
  unfold jsBasenameExt
  rw [jsBasename_append D (X ++ E) hXE]
  have hdata : (X ++ E).data = X.data ++ E.data := String.data_append X E
  have hlen : (X ++ E).data.length - E.data.length = X.data.length := by
    rw [hdata]
    simp
  have hne : (X ++ E).data ≠ E.data := by
    intro hc
    have hlc := congrArg List.length hc
    rw [hdata] at hlc
    simp at hlc
    exact hX0 (List.length_eq_zero.mp hlc)
  have hdrop : (X ++ E).data.drop ((X ++ E).data.length - E.data.length) = E.data := by
    rw [hlen, hdata]
    exact List.drop_left X.data E.data
  rw [if_pos ⟨hne, hdrop⟩]
  apply String.ext
  show (X ++ E).data.take ((X ++ E).data.length - E.data.length) = X.data
  rw [hlen, hdata]
  exact List.take_left X.data E.data

theorem splitCharAux_no_sep (sep : Char) (l : List Char) (acc : List Char)
    (h : sep ∉ l) : splitCharAux sep l acc = [acc.reverse ++ l] := by
  induction l generalizing acc with
  | nil => simp [splitCharAux]
  | cons c cs ih =>
    rw [splitCharAux, if_neg (by intro hc; exact h (hc ▸ List.mem_cons_self c cs)),
      ih (c :: acc) (fun hc => h (List.mem_cons_of_mem c hc))]
    simp

theorem splitCharAux_sep_split (sep : Char) (l1 l2 acc : List Char)
    (h : sep ∉ l1) :
    splitCharAux sep (l1 ++ sep :: l2) acc =
      (acc.reverse ++ l1) :: splitCharAux sep l2 [] := by
  induction l1 generalizing acc with
  | nil => simp [splitCharAux]
  | cons c cs ih =>
    rw [List.cons_append, splitCharAux,
      if_neg (by intro hc; exact h (hc ▸ List.mem_cons_self c cs)),
      ih (c :: acc) (fun hc => h (List.mem_cons_of_mem c hc))]
    simp

theorem trimChars_head_not_ws {a : Char} {l : List Char}
    (h3 : (a :: l).dropWhile isWs = a :: l) : isWs a = false := by
  by_contra hc
  rw [List.dropWhile_cons, if_pos (by simpa using hc)] at h3
  have hlen := length_dropWhile_le isWs l
  rw [h3] at hlen
  simp at hlen

theorem trimChars_append_space (A : List Char)
    (h3 : A.dropWhile isWs = A) (h4 : A.reverse.dropWhile isWs = A.reverse) :
    trimChars (A ++ [' ']) = A := by
  unfold trimChars
  cases A with
  | nil => rfl
  | cons a as =>
    have ha : isWs a = false := trimChars_head_not_ws h3
    rw [List.cons_append, List.dropWhile_cons, if_neg (by simp [ha])]
    have hrev : (a :: (as ++ [' '])).reverse = ' ' :: (a :: as).reverse := by
      simp
    rw [hrev, List.dropWhile_cons, if_pos (by decide), h4]
    simp

theorem trimChars_cons_space (T : List Char)
    (h3 : T.dropWhile isWs = T) (h4 : T.reverse.dropWhile isWs = T.reverse) :
    trimChars (' ' :: T) = T := by
  unfold trimChars
  rw [List.dropWhile_cons, if_pos (by decide), h3, h4]
  simp

/-- Claim C6 as amended.  For a tag-less file `Album/Artist - Title.ext` in
which the artist and title contain no further `'-'` (and no `'/'`), with both
already whitespace-trimmed: the fallback metadata derived by `insertSong` via
`guessMetadataFromPath` is artist = the text before the `" - "` separator,
title = the text after it, album = the containing directory name.  (The
source splits the basename at *every* `'-'` and trims each piece, so this
agrees with the claim's `Album-directory/Artist - Title.ext` pattern exactly
when artist and title are dash-free; the counterexample shows the general
"title = entire remainder after the first separator" reading fails.) -/
theorem c6_metadata_amended (D A T E : String) (dur : ℚ) (fmt : String)
    (hD0 : D.data ≠ []) (hD : '/' ∉ D.data)
    (hA1 : '/' ∉ A.data) (hA2 : '-' ∉ A.data)
    (hA3 : A.data.dropWhile isWs = A.data)
    (hA4 : A.data.reverse.dropWhile isWs = A.data.reverse)
    (hT1 : '/' ∉ T.data) (hT2 : '-' ∉ T.data)
    (hT3 : T.data.dropWhile isWs = T.data)
    (hT4 : T.data.reverse.dropWhile isWs = T.data.reverse)
    (hE1 : '/' ∉ E.data) :
    insertSong { file := D ++ "/" ++ (A ++ " - " ++ T ++ E), fileext := E,
                 metaTITLE := none, metaARTIST := none, metaALBUM := none,
                 durationSec := dur, formatName := fmt } =
      { title := some T, artist := some A, album := some D,
        duration := dur * 1000, format := fmt,
        filename := D ++ "/" ++ (A ++ " - " ++ T ++ E) } := by
  have hXdata : (A ++ " - " ++ T).data =
      (A.data ++ [' ']) ++ '-' :: (' ' :: T.data) := by
    rw [String.data_append, String.data_append]
    have h : (" - " : String).data = [' ', '-', ' '] := rfl
    rw [h]
    simp
  have hX : '/' ∉ (A ++ " - " ++ T).data := by
    rw [hXdata]
    intro hc
    rcases List.mem_append.mp hc with h | h
    · rcases List.mem_append.mp h with h | h
      · exact hA1 h
      · exact absurd h (by decide)
    · rcases List.mem_cons.mp h with h | h
      · exact absurd h (by decide)
      · rcases List.mem_cons.mp h with h | h
        · exact absurd h (by decide)
        · exact hT1 h
  have hX0 : (A ++ " - " ++ T).data ≠ [] := by
    rw [hXdata]
    simp
  have hguess : guessMetadataFromPath (D ++ "/" ++ (A ++ " - " ++ T ++ E)) E =
      { artist := some A, title := some T, album := D } := by
    have hsplit : jsSplitChar '-' (A ++ " - " ++ T) =
        [⟨A.data ++ [' ']⟩, ⟨' ' :: T.data⟩] := by
      unfold jsSplitChar
      rw [hXdata]
      rw [splitCharAux_sep_split '-' (A.data ++ [' ']) (' ' :: T.data) []
        (by intro hc
            rcases List.mem_append.mp hc with h | h
            · exact hA2 h
            · exact absurd h (by decide))]
      rw [splitCharAux_no_sep '-' (' ' :: T.data) []
        (by intro hc
            rcases List.mem_cons.mp hc with h | h
            · exact absurd h (by decide)
            · exact hT2 h)]
      simp
    have ht1 : jsTrim ⟨A.data ++ [' ']⟩ = A := by
      unfold jsTrim
      apply String.ext
      show trimChars (A.data ++ [' ']) = A.data
      exact trimChars_append_space A.data hA3 hA4
    have ht2 : jsTrim ⟨' ' :: T.data⟩ = T := by
      unfold jsTrim
      apply String.ext
      show trimChars (' ' :: T.data) = T.data
      exact trimChars_cons_space T.data hT3 hT4
    have hdir : jsDirname (D ++ "/" ++ (A ++ " - " ++ T ++ E)) = D := by
      apply jsDirname_append
      · rw [String.data_append]
        intro hc
        rcases List.mem_append.mp hc with h | h
        · exact hX h
        · exact hE1 h
      · exact hD0
    unfold guessMetadataFromPath
    rw [jsBasenameExt_strip D (A ++ " - " ++ T) E hX hE1 hX0]
    simp only [hsplit, List.map_cons, List.map_nil, ht1, ht2]
    rw [hdir, jsBasename_no_slash D hD]
    simp
  unfold insertSong
  rw [hguess]
  rfl

/-- Witness for the amended C6 at the claim's example file
`"Compilation/Artist - Song Title.flac"` with no embedded tags. -/
theorem c6_metadata_amended_witness :
    insertSong { file := "Compilation" ++ "/" ++ ("Artist" ++ " - " ++ "Song Title" ++ ".flac"),
                 fileext := ".flac", metaTITLE := none, metaARTIST := none,
                 metaALBUM := none, durationSec := 100, formatName := "flac" } =
      { title := some "Song Title", artist := some "Artist",
        album := some "Compilation", duration := 100 * 1000, format := "flac",
        filename := "Compilation" ++ "/" ++ ("Artist" ++ " - " ++ "Song Title" ++ ".flac") } :=
  c6_metadata_amended "Compilation" "Artist" "Song Title" ".flac" 100 "flac"
    (by decide) (by decide) (by decide) (by decide) (by decide) (by decide)
    (by decide) (by decide) (by decide) (by decide) (by decide)

end NodePlayer
